import Mathlib

/-!
# Verification of the `mfctscan` certificate-transparency scanner

A shallow embedding of the repository `jasonmf/mfctscan` (Go).  The program
is a three-stage pipeline: a scan stage (`scanner.go`) querying a
certificate-transparency log with pagination and input dedup, a resolve
stage (`resolver.go`) performing DNS lookups with name dedup, and a sink
(`main.go`) expanding resolved records into CSV rows.

Modelling conventions:
* Byte slices are `List Char` (one `Char` per byte; the code never inspects
  multi-byte encodings).  The body slice returned by `ioutil.ReadAll` has
  capacity at least 512 and Go bounds-checks slice expressions against
  capacity, so the guardless `b[:4]` never panics: on a body shorter than
  4 bytes the comparison against the 4-byte marker simply fails (the
  padding bytes are `NUL`) and the body proceeds unstripped.
* External library calls (the `encoding/json` byte-level decoder behind
  `simplejson.NewJson`, `gzip.NewReader`, `net.LookupHost`, `client.Do`)
  are taken as oracle function parameters; the repository's own logic
  around them is translated directly.
* Go `error` values are `Option String` (the message); Go's multi-value
  returns become tuples.
* Each stage's worker loop is modelled as its sequential semantics over
  the list of values delivered on its input channel; the mutex-guarded
  test-and-insert on the shared set is the atomic step it is in the code.
-/

set_option autoImplicit false

namespace Mfctscan

/-- `Record` from `scanner.go`: information about a domain from certificate
transparency and subsequent DNS resolution.  `Err` is the Go `error`
field, modelled as an optional message. -/
structure Record where
  From          : String
  Name          : String
  Issuer        : String
  NotBeforeTime : Int
  NotAfterTime  : Int
  Addrs         : List String
  Err           : Option String
  deriving DecidableEq, Repr

/-- JSON values as exposed by the `go-simplejson` wrapper used in
`parseCTData`.  Numbers are modelled as integers (the fields read are
epoch-millisecond integers). -/
inductive Json where
  | null
  | bool (b : Bool)
  | num  (n : Int)
  | str  (s : String)
  | arr  (elems : List Json)
  | obj  (fields : List (String × Json))

/-- `simplejson` `GetIndex`: the `i`-th element when the value is an array
and the index is in range, otherwise a null-wrapping `Json`. -/
def Json.getIndex : Json → Nat → Json
  | .arr xs, i => if h : i < xs.length then xs.get ⟨i, h⟩ else .null
  | _, _ => .null

/-- `simplejson` `MustString` with no default: the string value, or `""`
when the value is not a string. -/
def Json.mustString : Json → String
  | .str s => s
  | _ => ""

/-- `simplejson` `MustInt64` with no default: the numeric value, or `0`
when the value is not a number. -/
def Json.mustInt64 : Json → Int
  | .num n => n
  | _ => 0

/-- `simplejson` `Array()`: the element list, or an error (`none`) when the
value is not an array. -/
def Json.array? : Json → Option (List Json)
  | .arr xs => some xs
  | _ => none

/-- The 4-byte anti-hijacking marker `)]}​'` that Google prepends to CT
responses (`scanner.go` line 117); the last byte is the apostrophe,
written via its code point. -/
def xssiMagic : List Char := [')', ']', '}', Char.ofNat 39]

/-- The prefix-stripping step of `Scanner.scan` (`scanner.go` 117-120):
`if string(b[:4]) == ")]}​'" { b = b[4:] }`.  The slice `b[:4]` has no
length guard, but `b` comes from `ioutil.ReadAll` (capacity at least
512) and Go checks slice bounds against capacity, so the slice succeeds
even on a body shorter than 4 bytes; the comparison then fails (the
marker contains no `NUL`) and the body proceeds unstripped, which the
`take`-based comparison reproduces. -/
def stripXSSI (b : List Char) : List Char :=
  if b.take 4 = xssiMagic then b.drop 4 else b

/-- `parseCTData`'s extraction of records and continuation token from the
decoded JSON (`scanner.go` 221-247).  `[0][1]` must be an array (else the
`records not an array` error); each entry contributes a `Record` whose
`Name`/`Issuer` come from entry indices 1-2 via `MustString` and whose
validity times come from indices 3-4 via `MustInt64`; the continuation
token is `[0][3][1]` via `MustString`. -/
def parseCTJson (j : Json) : Except String (List Record × String) :=
  let recordsJSON := (j.getIndex 0).getIndex 1
  match recordsJSON.array? with
  | none => Except.error "records not an array"
  | some recordsArray =>
    let records := (List.range recordsArray.length).map (fun i =>
      let currentRecord := recordsJSON.getIndex i
      { From          := ""
        Name          := (currentRecord.getIndex 1).mustString
        Issuer        := (currentRecord.getIndex 2).mustString
        NotBeforeTime := (currentRecord.getIndex 3).mustInt64
        NotAfterTime  := (currentRecord.getIndex 4).mustInt64
        Addrs         := []
        Err           := none })
    let token := (((j.getIndex 0).getIndex 3).getIndex 1).mustString
    Except.ok (records, token)

/-- `parseCTData` (`scanner.go` 221-247) on raw bytes: the byte-level JSON
decoder (`simplejson.NewJson`, library code) is the `decode` oracle; a
decode failure is the `parsing JSON` error, otherwise extraction runs on
the decoded value. -/
def parseCTBytes (decode : List Char → Option Json) (b : List Char) :
    Except String (List Record × String) :=
  match decode b with
  | none => Except.error "parsing JSON"
  | some j => parseCTJson j

/-- An HTTP response as consumed by the body-handling part of
`Scanner.scan`: status code, `Content-Encoding` header, and the (already
read) body bytes. -/
structure HttpResponse where
  status          : Nat
  contentEncoding : String
  body            : List Char

/-- Response handling of one page in `Scanner.scan` (`scanner.go` 96-125):
status check, then gzip decompression when the header says so (`gunzip`
oracle, `none` = failure), then prefix stripping, then `parseCTData`.
`.error e` is a returned error; `.ok (records, token)` is success. -/
def processBody (gunzip : List Char → Option (List Char))
    (decode : List Char → Option Json) (resp : HttpResponse) :
    Except String (List Record × String) :=
  if resp.status < 200 ∨ 299 < resp.status then
    Except.error ("non-200 response " ++ toString resp.status)
  else
    match (if resp.contentEncoding = "gzip" then gunzip resp.body
           else some resp.body) with
    | none => Except.error "creating gzip reader"
    | some b => parseCTBytes decode (stripXSSI b)

/-- The two request shapes `Scanner.scan` builds (`scanner.go` 68-79): a
first request carrying the domain and `include_subdomains=true`, or a
continuation request carrying only the token `p`. -/
inductive PageRequest where
  | first (domain : String)
  | cont  (token : String)
  deriving DecidableEq

/-- Request selection in the loop body of `Scanner.scan`: the first form
when the current token is empty, the continuation form otherwise. -/
def mkPageRequest (domain token : String) : PageRequest :=
  if token = "" then .first domain else .cont token

/-- How one run of `Scanner.scan` ends: normal completion or a returned
error. -/
inductive ScanEnd where
  | done
  | errored (e : String)
  deriving DecidableEq, Repr

/-- `record.From = domain` tagging applied to each parsed record before it
is sent on the output channel (`scanner.go` 126-130). -/
def setFrom (domain : String) (r : Record) : Record := { r with From := domain }

/-- The pagination loop of `Scanner.scan` (`scanner.go` 64-139), unrolled
on the remaining iteration count (`for i := 0; i < s.maxPages; i++`), with
the current continuation token as loop state.  `fetch` is the
`client.Do` oracle (`none` = transport error).  Returns the records sent
to the output channel in order, the number of requests issued, and how
the loop ended. -/
def scanPages (fetch : PageRequest → Option HttpResponse)
    (gunzip : List Char → Option (List Char))
    (decode : List Char → Option Json) (domain : String) :
    Nat → String → List Record × Nat × ScanEnd
  | 0, _ => ([], 0, .done)
  | n + 1, token =>
    match fetch (mkPageRequest domain token) with
    | none => ([], 1, .errored "sending request")
    | some resp =>
      match processBody gunzip decode resp with
      | .error e => ([], 1, .errored e)
      | .ok (records, newToken) =>
        let tagged := records.map (setFrom domain)
        if newToken = "" then (tagged, 1, .done)
        else
          let rest := scanPages fetch gunzip decode domain n newToken
          (tagged ++ rest.1, rest.2.1 + 1, rest.2.2)

/-- `Scanner.scan` for one domain: the loop runs at most `maxPages`
iterations (an `int`; zero or negative means the body never runs) and
starts with the empty token. -/
def scanGo (maxPages : Int) (fetch : PageRequest → Option HttpResponse)
    (gunzip : List Char → Option (List Char))
    (decode : List Char → Option Json) (domain : String) :
    List Record × Nat × ScanEnd :=
  scanPages fetch gunzip decode domain maxPages.toNat ""

/-- `normalizeDomain` (`scanner.go` 142-144): trim surrounding
whitespace (`strings.TrimSpace`, modelled structurally: drop leading and
trailing whitespace characters). -/
def normalizeDomain (d : String) : String :=
  ⟨((d.data.dropWhile Char.isWhitespace).reverse.dropWhile
      Char.isWhitespace).reverse⟩

/-- `Scanner.ScanStream` (`scanner.go` 44-61): loop over the input
channel; normalize each domain; under the lock, skip it when already in
`scanned`, else insert it; then call `scan` (the `scanErr` oracle gives
`scan`'s error result).  Returns the list of domains `scan` was called
on, in order, and the error `ScanStream` returned (`none` = nil).  The
`scanned` set is modelled as the list of its members. -/
def scanStream (scanErr : String → Option String) :
    List String → List String → List String × Option String
  | _, [] => ([], none)
  | scanned, d :: rest =>
    let domain := normalizeDomain d
    if domain ∈ scanned then scanStream scanErr scanned rest
    else
      match scanErr domain with
      | some e => ([domain], some e)
      | none =>
        let r := scanStream scanErr (domain :: scanned) rest
        (domain :: r.1, r.2)

/-- `strings.HasPrefix` (from `resolver.go` 30), modelled structurally on
the character list. -/
def hasPrefixGo (s p : String) : Bool := p.data.isPrefixOf s.data

/-- `Resolver.Resolve` (`resolver.go` 19-40): loop over the input
channel; under the lock, drop the record when its `Name` is already in
`resolved`, else insert the name; names starting with `*` or `"` are
forwarded unchanged without a lookup; otherwise `net.LookupHost` (the
`lookup` oracle, returning `(addrs, err)`) fills `Addrs`/`Err` and the
record is forwarded.  Returns the records sent to the output channel in
order and the names looked up in order. -/
def resolveGo (lookup : String → List String × Option String) :
    List String → List Record → List Record × List String
  | _, [] => ([], [])
  | resolved, r :: rest =>
    if r.Name ∈ resolved then resolveGo lookup resolved rest
    else
      if hasPrefixGo r.Name "*" ∨ hasPrefixGo r.Name "\"" then
        let rec1 := resolveGo lookup (r.Name :: resolved) rest
        (r :: rec1.1, rec1.2)
      else
        let res := lookup r.Name
        let r' := { r with Addrs := res.1, Err := res.2 }
        let rec1 := resolveGo lookup (r.Name :: resolved) rest
        (r' :: rec1.1, r.Name :: rec1.2)

/-- The sink loop in `main` (`main.go` 96-119): a record with `Err` set
yields the single row `(From, Name, "", message)`; otherwise one row
`(From, Name, addr, "")` per address in `Addrs` (none when `Addrs` is
empty). -/
def sinkRows : List Record → List (List String)
  | [] => []
  | r :: rest =>
    (match r.Err with
     | some e => [[r.From, r.Name, "", e]]
     | none => r.Addrs.map (fun addr => [r.From, r.Name, addr, ""]))
    ++ sinkRows rest

/-! ## Concrete test fixtures

Decoded payloads and responses used to instantiate the oracle parameters
in witnesses and counterexamples. -/

/-- A decoded payload with no entries and the non-empty continuation
token `tok` at `[0][3][1]`. -/
def pageTokenJson : Json :=
  .arr [.arr [.null, .arr [], .null, .arr [.null, .str "tok"]]]

/-- A plain 200 response whose 4-byte body does not carry the
anti-hijacking marker. -/
def pageTokenResp : HttpResponse := ⟨200, "", ['a', 'b', 'c', 'd']⟩

/-- A decoded payload whose entries array is present but whose single
entry has `null` (wrong-typed) fields and whose token slot `[0][3]` is
missing. -/
def badEntryJson : Json :=
  .arr [.arr [.str "x", .arr [.arr [.null, .null, .null, .null, .null]],
    .null, .null]]

/-- A plain 200 response for the wrong-typed-entry payload. -/
def badEntryResp : HttpResponse := ⟨200, "", ['w', 'x', 'y', 'z']⟩

/-- A decoded payload whose single entry carries the hostname
`foo.example.com` at entry index 1, with an empty continuation token. -/
def goodNameJson : Json :=
  .arr [.arr [.null, .arr [.arr [.null, .str "foo.example.com"]], .null,
    .arr [.null, .str ""]]]

/-- The record `parseCTData` extracts from `goodNameJson`. -/
def goodNameRecord : Record :=
  { From := "", Name := "foo.example.com", Issuer := "", NotBeforeTime := 0
    NotAfterTime := 0, Addrs := [], Err := none }

/-- A decoded payload whose single entry has `null` at index 1 (no
hostname), with continuation token `t`. -/
def nullNameJson : Json :=
  .arr [.arr [.null, .arr [.arr [.null, .null]], .null,
    .arr [.null, .str "t"]]]

/-- A wildcard record as the scan stage would emit it. -/
def wildcardRecord : Record :=
  { From := "example.com", Name := "*.example.com", Issuer := ""
    NotBeforeTime := 0, NotAfterTime := 0, Addrs := [], Err := none }

/-! ## Theorems -/

/-- C3: for every sequence of Records consumed by the sink, the total
number of output rows is the sum over Records of 1 when `Err` is set and
the number of entries of `Addrs` otherwise; in particular a Record with
empty `Addrs` and no `Err` produces no row. -/
theorem sink_row_count (records : List Record) :
    (sinkRows records).length =
      (records.map (fun r => match r.Err with
        | some _ => 1
        | none => r.Addrs.length)).sum := by
  induction records with
  | nil => rfl
  | cons r rest ih =>
    cases hE : r.Err <;> simp [sinkRows, hE, ih, Nat.add_comm]

/-- Counterexample to C8 as stated: a concrete 1-byte response body is
handled totally — the guardless slice does not crash, the body proceeds
unstripped, and the worker returns the JSON-parse error instead. -/
theorem scan_short_body_counterexample :
    processBody (fun _ => none) (fun _ => none) ⟨200, "", ['x']⟩ =
      Except.error "parsing JSON" :=
  rfl

/-- C8 (amended): the prefix-stripping step slices the first 4 bytes
with no length guard, but the slice is bounds-checked against the
`ReadAll` buffer's capacity and succeeds, so for every body shorter than
4 bytes the handling is total: the marker comparison fails, the body
proceeds unstripped, and the worker returns the decoder's error rather
than crashing. -/
theorem strip_short_body_total (b : List Char) (h : b.length < 4) :
    stripXSSI b = b ∧
    ∀ (gunzip : List Char → Option (List Char))
      (decode : List Char → Option Json), decode b = none →
      processBody gunzip decode ⟨200, "", b⟩ =
        Except.error "parsing JSON" := by
  have htake : b.take 4 = b := List.take_of_length_le (by omega)
  have hne : b ≠ xssiMagic := by
    intro he
    rw [he] at h
    simp [xssiMagic] at h
  have hstrip : stripXSSI b = b := by
    unfold stripXSSI
    rw [htake, if_neg hne]
  refine ⟨hstrip, ?_⟩
  intro gunzip decode hdec
  simp [processBody, hstrip, parseCTBytes, hdec]

/-- Witness for `strip_short_body_total` on the 1-byte body `x`. -/
theorem strip_short_body_total_witness :
    stripXSSI ['x'] = ['x'] ∧
      processBody (fun _ => none) (fun _ => none) ⟨200, "", ['x']⟩ =
        Except.error "parsing JSON" :=
  ⟨(strip_short_body_total ['x'] (by decide)).1,
    (strip_short_body_total ['x'] (by decide)).2 (fun _ => none)
      (fun _ => none) rfl⟩

/-- C10: when the configured `max-pages` is zero or negative the
pagination loop body never runs: no request is issued, no Record is
emitted, and no error is returned. -/
theorem scan_nonpositive_max_pages (maxPages : Int)
    (fetch : PageRequest → Option HttpResponse)
    (gunzip : List Char → Option (List Char))
    (decode : List Char → Option Json) (domain : String)
    (h : maxPages ≤ 0) :
    scanGo maxPages fetch gunzip decode domain = ([], 0, ScanEnd.done) := by
  unfold scanGo
  rw [Int.toNat_of_nonpos h]
  rfl

/-- Witness for `scan_nonpositive_max_pages` at `max-pages = 0`. -/
theorem scan_nonpositive_max_pages_witness :
    scanGo 0 (fun _ => none) (fun _ => none) (fun _ => none) "example.com" =
      ([], 0, ScanEnd.done) :=
  scan_nonpositive_max_pages 0 _ _ _ "example.com" (by decide)

/-- C7: for every byte sequence `b` of length at least 4, the stripping
step maps the concatenation of the 4-byte anti-hijacking marker with `b`
to `b` itself, so parsing after the stripping step yields exactly the
same records, continuation token, and error as parsing `b`. -/
theorem strip_then_parse_equiv (decode : List Char → Option Json)
    (b : List Char) (_h : 4 ≤ b.length) :
    parseCTBytes decode (stripXSSI (xssiMagic ++ b)) =
      parseCTBytes decode b := by
  have htake : (xssiMagic ++ b).take 4 = xssiMagic := rfl
  have hdrop : (xssiMagic ++ b).drop 4 = b := rfl
  unfold stripXSSI
  rw [if_pos htake, hdrop]

/-- Witness for `strip_then_parse_equiv` on a concrete 4-byte body. -/
theorem strip_then_parse_equiv_witness :
    parseCTBytes (fun _ => none) (stripXSSI (xssiMagic ++ ['a', 'b', 'c', 'd'])) =
      parseCTBytes (fun _ => none) ['a', 'b', 'c', 'd'] :=
  strip_then_parse_equiv (fun _ => none) ['a', 'b', 'c', 'd'] (by decide)

/-- Helper: how often a given domain is passed to `scan` by `ScanStream`,
for an arbitrary initial `scanned` set, when no `scan` call errors. -/
theorem scanStream_count (scanErr : String → Option String)
    (h : ∀ x, scanErr x = none) (d : String) (domains : List String) :
    ∀ scanned : List String,
      ((scanStream scanErr scanned domains).1).count d =
        if d ∈ domains.map normalizeDomain ∧ d ∉ scanned then 1 else 0 := by
  induction domains with
  | nil => intro scanned; simp [scanStream]
  | cons d0 rest ih =>
    intro scanned
    by_cases hm : normalizeDomain d0 ∈ scanned
    · by_cases hd : d = normalizeDomain d0
      · subst hd
        simp [scanStream, hm, ih scanned]
      · simp [scanStream, hm, ih scanned, hd]
    · by_cases hd : d = normalizeDomain d0
      · subst hd
        simp [scanStream, hm, h, ih, List.count_cons]
      · simp [scanStream, hm, h, ih, List.count_cons, hd]

/-- C1: over any input sequence, including exact duplicates, `ScanStream`
calls `scan` exactly once per distinct trimmed domain string (when no
`scan` call fails), and a domain already present in the `scanned` set is
skipped without any query. -/
theorem scanStream_dedup (scanErr : String → Option String)
    (domains : List String) (d : String) (h : ∀ x, scanErr x = none) :
    (((scanStream scanErr [] domains).1).count d =
        if d ∈ domains.map normalizeDomain then 1 else 0)
    ∧ ∀ scanned : List String, d ∈ scanned →
        ((scanStream scanErr scanned domains).1).count d = 0 := by
  constructor
  · simpa using scanStream_count scanErr h d domains []
  · intro scanned hmem
    rw [scanStream_count scanErr h d domains scanned,
      if_neg (fun hc => hc.2 hmem)]

/-- Witness for `scanStream_dedup`: three input lines, two of which trim
to the same domain, yield exactly one `scan` call for it. -/
theorem scanStream_dedup_witness :
    ((scanStream (fun _ => none) [] ["a.com", " a.com", "b.com"]).1).count
      "a.com" = 1 := by
  have hth :=
    (scanStream_dedup (fun _ => none) ["a.com", " a.com", "b.com"] "a.com"
      (fun _ => rfl)).1
  rw [hth]
  decide

/-- Helper: with an arbitrary initial `resolved` set, each name is looked
up at most once by `Resolve` and forwarded at most once, and not at all
when already in the set. -/
theorem resolveGo_counts (lookup : String → List String × Option String)
    (n : String) (records : List Record) :
    ∀ resolved : List String,
      (((resolveGo lookup resolved records).2).count n ≤
          if n ∈ resolved then 0 else 1)
      ∧ (((resolveGo lookup resolved records).1.map Record.Name).count n ≤
          if n ∈ resolved then 0 else 1) := by
  induction records with
  | nil => intro resolved; simp [resolveGo]
  | cons r rest ih =>
    intro resolved
    by_cases hm : r.Name ∈ resolved
    · simpa [resolveGo, hm] using ih resolved
    · have hrec := ih (r.Name :: resolved)
      by_cases hw : hasPrefixGo r.Name "*" ∨ hasPrefixGo r.Name "\""
      · by_cases hn : n = r.Name
        · subst hn
          simp only [resolveGo, if_neg hm, if_pos hw] at *
          simp only [List.mem_cons, true_or, if_true, if_neg hm] at hrec ⊢
          simp [List.count_cons, hrec.1, hrec.2, Nat.le_succ_of_le]
        · simp only [resolveGo, if_neg hm, if_pos hw] at *
          have hmem : (n ∈ r.Name :: resolved) = (n ∈ resolved) := by
            simp [List.mem_cons, hn]
          simp only [hmem] at hrec
          simp [List.count_cons, hn, hrec.1, hrec.2]
      · by_cases hn : n = r.Name
        · subst hn
          simp only [resolveGo, if_neg hm, if_neg hw] at *
          simp only [List.mem_cons, true_or, if_true, if_neg hm] at hrec ⊢
          simp [List.count_cons, hrec.1, hrec.2]
        · simp only [resolveGo, if_neg hm, if_neg hw] at *
          have hmem : (n ∈ r.Name :: resolved) = (n ∈ resolved) := by
            simp [List.mem_cons, hn]
          simp only [hmem] at hrec
          simp [List.count_cons, hn, hrec.1, hrec.2]

/-- C2: over any sequence of Records delivered to the resolve stage, at
most one DNS lookup is issued per distinct name, and records carrying an
already-seen name are dropped (each name is forwarded at most once). -/
theorem resolve_dedup (lookup : String → List String × Option String)
    (records : List Record) (n : String) :
    (((resolveGo lookup [] records).2).count n ≤ 1)
    ∧ (((resolveGo lookup [] records).1.map Record.Name).count n ≤ 1) := by
  simpa using resolveGo_counts lookup n records []

/-- Helper: when every request produces a successfully parsed response
with a non-empty continuation token, the pagination loop runs all its
iterations, one request each, and ends normally. -/
theorem scanPages_full (fetch : PageRequest → Option HttpResponse)
    (gunzip : List Char → Option (List Char))
    (decode : List Char → Option Json) (domain : String)
    (h : ∀ req, ∃ resp rs t, fetch req = some resp ∧
        processBody gunzip decode resp = Except.ok (rs, t) ∧ t ≠ "") :
    ∀ (n : Nat) (token : String),
      (scanPages fetch gunzip decode domain n token).2 = (n, ScanEnd.done) := by
  intro n
  induction n with
  | zero => intro token; rfl
  | succ m ih =>
    intro token
    obtain ⟨resp, rs, t, hf, hp, ht⟩ := h (mkPageRequest domain token)
    simp [scanPages, hf, hp, ht, ih t]

/-- C4: for a domain whose every response carries a non-empty
continuation token, the scan issues exactly `max-pages` requests and then
stops normally; and the loop stops early, right after the request whose
response carries an empty continuation token. -/
theorem scan_pagination (fetch : PageRequest → Option HttpResponse)
    (gunzip : List Char → Option (List Char))
    (decode : List Char → Option Json) (domain : String) :
    ((∀ req, ∃ resp rs t, fetch req = some resp ∧
        processBody gunzip decode resp = Except.ok (rs, t) ∧ t ≠ "") →
      ∀ maxPages : Int, 0 ≤ maxPages →
        (scanGo maxPages fetch gunzip decode domain).2 =
          (maxPages.toNat, ScanEnd.done))
    ∧ (∀ (n : Nat) (token : String) (resp : HttpResponse) (rs : List Record),
        fetch (mkPageRequest domain token) = some resp →
        processBody gunzip decode resp = Except.ok (rs, "") →
        scanPages fetch gunzip decode domain (n + 1) token =
          (rs.map (setFrom domain), 1, ScanEnd.done)) := by
  constructor
  · intro h maxPages _
    exact scanPages_full fetch gunzip decode domain h maxPages.toNat ""
  · intro n token resp rs hf hp
    simp [scanPages, hf, hp]

/-- Witness for `scan_pagination`: with responses always carrying token
`tok`, `max-pages = 3` issues exactly 3 requests; and a response with an
empty token stops the loop after 1 request. -/
theorem scan_pagination_witness :
    ((scanGo 3 (fun _ => some pageTokenResp) (fun _ => none)
        (fun _ => some pageTokenJson) "example.com").2 =
      (3, ScanEnd.done))
    ∧ scanPages (fun _ => some pageTokenResp) (fun _ => none)
        (fun _ => some goodNameJson) "example.com" 5 "" =
      ([{ goodNameRecord with From := "example.com" }], 1, ScanEnd.done) := by
  have hth := scan_pagination (fun _ => some pageTokenResp) (fun _ => none)
    (fun _ => some pageTokenJson) "example.com"
  have hth2 := scan_pagination (fun _ => some pageTokenResp) (fun _ => none)
    (fun _ => some goodNameJson) "example.com"
  constructor
  · exact hth.1 (fun req => ⟨pageTokenResp, [], "tok", rfl, rfl, by decide⟩)
      3 (by decide)
  · have h := hth2.2 4 "" pageTokenResp [goodNameRecord] rfl rfl
    simpa using h

/-- C5: a Record whose `Name` begins with `*` or `"` and is not already
in the resolved set is forwarded unchanged with no DNS lookup, and (the
Record having empty `Addrs` and no `Err`) the sink emits no row for
it. -/
theorem resolve_wildcard_bypass (lookup : String → List String × Option String)
    (resolved : List String) (r : Record) (rest : List Record)
    (hw : hasPrefixGo r.Name "*" ∨ hasPrefixGo r.Name "\"")
    (hmem : r.Name ∉ resolved) (ha : r.Addrs = []) (he : r.Err = none) :
    resolveGo lookup resolved (r :: rest) =
      (r :: (resolveGo lookup (r.Name :: resolved) rest).1,
        (resolveGo lookup (r.Name :: resolved) rest).2)
    ∧ sinkRows [r] = [] := by
  constructor
  · simp [resolveGo, hmem, hw]
  · simp [sinkRows, he, ha]

/-- Witness for `resolve_wildcard_bypass` on `*.example.com`. -/
theorem resolve_wildcard_bypass_witness :
    resolveGo (fun _ => ([], none)) [] [wildcardRecord] =
      ([wildcardRecord], [])
    ∧ sinkRows [wildcardRecord] = [] := by
  have h := resolve_wildcard_bypass (fun _ => ([], none)) [] wildcardRecord []
    (Or.inl (by decide)) (by simp) rfl rfl
  simpa using h

/-- C6 (amended): transport errors, non-2xx statuses, decompression
failures, malformed JSON, and a payload whose entries field is not an
array each make the scan worker return an error; but a payload whose
entries array is present is tolerated no matter the entry field types or
the token slot, yielding zero-valued fields and an empty token instead of
an error. -/
theorem scan_error_policy (gunzip : List Char → Option (List Char))
    (decode : List Char → Option Json) :
    (∀ resp : HttpResponse, (resp.status < 200 ∨ 299 < resp.status) →
        processBody gunzip decode resp =
          Except.error ("non-200 response " ++ toString resp.status))
    ∧ (∀ resp : HttpResponse, ¬(resp.status < 200 ∨ 299 < resp.status) →
        resp.contentEncoding = "gzip" → gunzip resp.body = none →
        processBody gunzip decode resp =
          Except.error "creating gzip reader")
    ∧ (∀ (resp : HttpResponse) (b : List Char),
        ¬(resp.status < 200 ∨ 299 < resp.status) →
        resp.contentEncoding ≠ "gzip" → stripXSSI resp.body = b →
        decode b = none →
        processBody gunzip decode resp = Except.error "parsing JSON")
    ∧ (∀ (resp : HttpResponse) (b : List Char) (j : Json),
        ¬(resp.status < 200 ∨ 299 < resp.status) →
        resp.contentEncoding ≠ "gzip" → stripXSSI resp.body = b →
        decode b = some j → ((j.getIndex 0).getIndex 1).array? = none →
        processBody gunzip decode resp =
          Except.error "records not an array")
    ∧ (∀ (domain : String) (fetch : PageRequest → Option HttpResponse)
        (maxPages : Int), 1 ≤ maxPages →
        fetch (mkPageRequest domain "") = none →
        scanGo maxPages fetch gunzip decode domain =
          ([], 1, ScanEnd.errored "sending request"))
    ∧ (∀ (domain : String) (fetch : PageRequest → Option HttpResponse)
        (maxPages : Int) (resp : HttpResponse) (e : String), 1 ≤ maxPages →
        fetch (mkPageRequest domain "") = some resp →
        processBody gunzip decode resp = Except.error e →
        scanGo maxPages fetch gunzip decode domain =
          ([], 1, ScanEnd.errored e))
    ∧ (∀ (j : Json) (entries : List Json),
        (j.getIndex 0).getIndex 1 = Json.arr entries →
        ∃ out, parseCTJson j = Except.ok out) := by
  refine ⟨?_, ?_, ?_, ?_, ?_, ?_, ?_⟩
  · intro resp hst
    simp [processBody, hst]
  · intro resp hst hce hgz
    simp [processBody, hst, hce, hgz]
  · intro resp b hst hce hstrip hdec
    simp [processBody, hst, hce, hstrip, parseCTBytes, hdec]
  · intro resp b j hst hce hstrip hdec harr
    simp [processBody, hst, hce, hstrip, parseCTBytes, hdec, parseCTJson,
      harr]
  · intro domain fetch maxPages hmp hf
    obtain ⟨k, hk⟩ : ∃ k, maxPages.toNat = k + 1 :=
      ⟨maxPages.toNat - 1, by omega⟩
    unfold scanGo
    rw [hk]
    simp [scanPages, hf]
  · intro domain fetch maxPages resp e hmp hf hp
    obtain ⟨k, hk⟩ : ∃ k, maxPages.toNat = k + 1 :=
      ⟨maxPages.toNat - 1, by omega⟩
    unfold scanGo
    rw [hk]
    simp [scanPages, hf, hp]
  · intro j entries harr
    refine ⟨?_, ?_⟩
    · exact ((List.range entries.length).map (fun i =>
        { From := ""
          Name := (((j.getIndex 0).getIndex 1).getIndex i |>.getIndex 1).mustString
          Issuer := (((j.getIndex 0).getIndex 1).getIndex i |>.getIndex 2).mustString
          NotBeforeTime := (((j.getIndex 0).getIndex 1).getIndex i |>.getIndex 3).mustInt64
          NotAfterTime := (((j.getIndex 0).getIndex 1).getIndex i |>.getIndex 4).mustInt64
          Addrs := []
          Err := none }),
        (((j.getIndex 0).getIndex 3).getIndex 1).mustString)
    · simp [parseCTJson, harr, Json.array?]

/-- Witness for `scan_error_policy`: a 500 response yields the status
error. -/
theorem scan_error_policy_witness :
    processBody (fun _ => none) (fun _ => none)
        ⟨500, "", []⟩ =
      Except.error "non-200 response 500" := by
  have h := (scan_error_policy (fun _ => none) (fun _ => none)).1
    ⟨500, "", []⟩ (by decide)
  simpa using h

/-- Counterexample to C6 as stated: a successfully fetched payload whose
entry fields are all of the wrong type (`null`) and whose token slot is
missing is silently tolerated — the scan finishes with no error,
emitting a zero-valued Record. -/
theorem scan_error_policy_counterexample :
    scanGo 1 (fun _ => some badEntryResp) (fun _ => none)
        (fun _ => some badEntryJson) "example.com" =
      ([{ From := "example.com", Name := "", Issuer := "",
          NotBeforeTime := 0, NotAfterTime := 0, Addrs := [],
          Err := none }], 1, ScanEnd.done) :=
  rfl

/-- C9 (amended): a Record created by `parseCTData` has `Name` equal to
the string at entry index 1 of its certificate entry; in particular the
`Name` is non-empty whenever that element is a non-empty string (but may
be empty when it is missing, `null`, or of another type). -/
theorem parse_record_name (j : Json) (rs : List Record) (t : String)
    (i : Nat) (s : String)
    (hp : parseCTJson j = Except.ok (rs, t))
    (hs : (((j.getIndex 0).getIndex 1).getIndex i).getIndex 1 = Json.str s)
    (hi : i < rs.length) :
    rs[i].Name = s ∧ (s ≠ "" → rs[i].Name ≠ "") := by
  rcases harr : ((j.getIndex 0).getIndex 1).array? with _ | arr
  · simp [parseCTJson, harr] at hp
  · simp [parseCTJson, harr] at hp
    obtain ⟨hrs, -⟩ := hp
    subst hrs
    have hlen : i < arr.length := by simpa using hi
    constructor
    · simp [List.getElem_map, List.getElem_range, hs, Json.mustString]
    · intro hne
      simp [List.getElem_map, List.getElem_range, hs, Json.mustString, hne]

/-- Witness for `parse_record_name` on a payload carrying
`foo.example.com`. -/
theorem parse_record_name_witness :
    ([goodNameRecord])[0].Name = "foo.example.com" ∧
      ("foo.example.com" ≠ "" → ([goodNameRecord])[0].Name ≠ "") :=
  parse_record_name goodNameJson [goodNameRecord] "" 0 "foo.example.com"
    rfl rfl (by decide)

/-- Counterexample to C9 as stated: a successfully parsed response whose
entry has `null` at index 1 yields a Record with an empty `Name`. -/
theorem parse_record_name_counterexample :
    parseCTJson nullNameJson =
      Except.ok ([{ From := "", Name := "", Issuer := "",
                    NotBeforeTime := 0, NotAfterTime := 0, Addrs := [],
                    Err := none }], "t") :=
  rfl

end Mfctscan
